import Mathlib

/-!
Verification development for the RSS generator of the-brandidentity.com
(file generate_rss.py).  The Python program is shallowly embedded: the
parsed HTML page is a tree of nodes, BeautifulSoup find and find_all
become preorder traversals, the regular expressions of the program are
modelled by executable Boolean predicates, and the wall clock is passed
explicitly as a natural number of seconds since the Unix epoch.  Network
and file effects are made explicit: the HTTP fetch result is an Option
and the file system is a map from path to content.
-/

set_option maxRecDepth 4096

/-! ## String utilities -/

/-- Prefix test on character lists. -/
def charsPrefix : List Char → List Char → Bool
  | [], _ => true
  | _ :: _, [] => false
  | c :: cs, d :: ds => c == d && charsPrefix cs ds

/-- Substring search on character lists: pat occurs somewhere in s. -/
def charsContains (pat : List Char) : List Char → Bool
  | [] => charsPrefix pat []
  | c :: rest => charsPrefix pat (c :: rest) || charsContains pat rest

/-- Substring test: pat occurs somewhere in s.  Used to model the
searches of the compiled regular expressions of the program, whose
patterns are plain alternations of literal words. -/
def strContains (s pat : String) : Bool :=
  charsContains pat.toList s.toList

/-- Prefix test on strings. -/
def strStarts (s pat : String) : Bool :=
  charsPrefix pat.toList s.toList

/-- Strip of leading and trailing whitespace, the strip of Python
string methods and of the strip=True text extraction. -/
def pyStrip (s : String) : String :=
  String.mk (((s.toList.dropWhile Char.isWhitespace).reverse.dropWhile Char.isWhitespace).reverse)

/-- Lowercasing of every character, modelling str.lower. -/
def lowerStr (s : String) : String :=
  String.mk (s.toList.map Char.toLower)

/-- Two-digit zero-padded decimal, as produced by strftime and
isoformat for day, month, hour, minute and second fields. -/
def pad2 (n : Nat) : String :=
  if n < 10 then "0" ++ toString n else toString n

/-- A run of n spaces, used by the JSON serializer for indentation. -/
def spaces (n : Nat) : String :=
  String.mk (List.replicate n ' ')

/-- Python truthiness of an optional string: None and the empty string
are falsy, every other string is truthy. -/
def pyTruthyOpt (o : Option String) : Bool :=
  match o with
  | none => false
  | some s => s ≠ ""

/-- Python `x or y` on optional strings: yields x when x is truthy,
otherwise y. -/
def pyOr (x y : Option String) : Option String :=
  if pyTruthyOpt x then x else y

/-! ## HTML node model

A parsed document is a forest of nodes.  An element node carries its
tag name, its attributes (the class attribute kept as the raw string
written in the markup) and its children in document order; a text node
carries its character data. -/

inductive Node where
  | elem (tag : String) (attrs : List (String × String)) (children : List Node)
  | text (s : String)

/-- Tag name of an element node, none for a text node. -/
def Node.tagName : Node → Option String
  | .elem t _ _ => some t
  | .text _ => none

/-- Children of a node (text nodes have none). -/
def Node.childNodes : Node → List Node
  | .elem _ _ cs => cs
  | .text _ => []

/-- Attribute lookup, modelling tag.get(key) of BeautifulSoup. -/
def Node.getAttr : Node → String → Option String
  | .elem _ as _, k => as.lookup k
  | .text _, _ => none

/-- Attribute presence, modelling the href=True filter of find. -/
def Node.hasAttr (n : Node) (k : String) : Bool :=
  (n.getAttr k).isSome

mutual

/-- Preorder listing of a node and all of its descendants, in document
order.  This is the traversal order of BeautifulSoup find_all. -/
def preorder : Node → List Node
  | .text s => [.text s]
  | .elem t as cs => .elem t as cs :: preorderList cs

/-- Preorder listing of a forest, in document order. -/
def preorderList : List Node → List Node
  | [] => []
  | n :: ns => preorder n ++ preorderList ns

end

/-- Descendants of an element, the element itself excluded: the search
domain of tag.find and tag.find_all in BeautifulSoup. -/
def descendantsOf (n : Node) : List Node :=
  preorderList n.childNodes

/-- tag.find(pred): first descendant satisfying the predicate. -/
def findOne (n : Node) (p : Node → Bool) : Option Node :=
  (descendantsOf n).find? p

/-- soup.find_all(pred) over the whole document: every node of the
forest satisfying the predicate, in document order. -/
def docFindAll (doc : List Node) (p : Node → Bool) : List Node :=
  (preorderList doc).filter p

/-- Membership of the tag name in a list of names, modelling the
name-list filter of find and find_all. -/
def tagIn (n : Node) (names : List String) : Bool :=
  match n.tagName with
  | some t => names.contains t
  | none => false

mutual

/-- Character data of all text descendants of a node, in document
order. -/
def textsOf : Node → List String
  | .text s => [s]
  | .elem _ _ cs => textsOfList cs

/-- Character data of all text descendants of a forest. -/
def textsOfList : List Node → List String
  | [] => []
  | n :: ns => textsOf n ++ textsOfList ns

end

/-- tag.get_text(strip=True): each text fragment stripped of leading
and trailing whitespace, then concatenated. -/
def getTextStrip (n : Node) : String :=
  String.join ((textsOf n).map pyStrip)

/-- Raw concatenated character data of a node, without stripping; used
to read back the text content of elements of the generated feed. -/
def rawText (n : Node) : String :=
  String.join (textsOf n)

/-! ## Models of the regular expressions of the program -/

/-- Search of the pattern (post|article|item|card|entry), as compiled
at line 37 of the program.  The pattern has no IGNORECASE flag, so the
match is case sensitive.  BeautifulSoup applies the regex to the class
tokens of the element; since no alternative of the pattern contains
whitespace, searching the raw class string is equivalent. -/
def classPostPattern (c : String) : Bool :=
  strContains c "post" || strContains c "article" || strContains c "item" ||
    strContains c "card" || strContains c "entry"

/-- Case-insensitive variant of the candidate class pattern, as the
specification describes it. -/
def classPostPatternCI (c : String) : Bool :=
  classPostPattern (lowerStr c)

/-- Search of the pattern (excerpt|description|summary), as compiled
at line 82 of the program; again case sensitive. -/
def classDescPattern (c : String) : Bool :=
  strContains c "excerpt" || strContains c "description" || strContains c "summary"

/-- Case-insensitive variant of the description class pattern, as the
specification describes it. -/
def classDescPatternCI (c : String) : Bool :=
  classDescPattern (lowerStr c)

/-- Test of the class attribute of an element against a pattern: the
attribute must be present and the pattern must match it, as in the
class_ keyword filter of find and find_all. -/
def classAttrMatches (n : Node) (pat : String → Bool) : Bool :=
  match n.getAttr "class" with
  | some c => pat c
  | none => false

/-- Search of the anchored pattern of line 41 of the program, matching
strings that end in a final path segment, optionally closed by one
slash: there is a slash, and the part after the last slash (after
removing at most one trailing slash) is nonempty. -/
def hrefSingleSegment (h : String) : Bool :=
  let cs := h.toList
  let t := match cs.getLast? with
           | some c => if c = '/' then cs.dropLast else cs
           | none => cs
  match t.reverse with
  | [] => false
  | c :: _ => decide (c ≠ '/') && t.contains '/' 

/-! ## Model of urljoin

The program resolves every href against its fixed base URL, which has
the https scheme, a nonempty host and an empty path.  The model covers
the href shapes reaching it: absolute URLs with a scheme, scheme
relative references, host relative paths and bare relative paths. -/

/-- A nonempty scheme of URL characters terminated by a colon before
any slash. -/
def hasScheme (u : String) : Bool :=
  let cs := u.toList
  cs.contains ':' &&
    (let s := cs.takeWhile (fun c => c ≠ ':')
     decide (s ≠ []) &&
       s.all (fun c => c.isAlpha || c.isDigit || c = '+' || c = '-' || c = '.') &&
       !(s.contains '/'))

/-- Resolution of a reference against a base URL with empty path, as
urljoin of the standard library does for the fixed base URL of the
program. -/
def urljoin (base url : String) : String :=
  if url = "" then base
  else if hasScheme url then url
  else if strStarts url "//" then "https:" ++ url
  else if strStarts url "/" then base ++ url
  else base ++ "/" ++ url

/-! ## Article records and the extractor

Translation of extract_article_data (lines 56 to 110) and of
fetch_articles (lines 26 to 54).  The wall clock read by datetime.now
is passed in as the parameter now.  The try blocks of the program can
only be left through the explicit early returns modelled below, so the
exception handlers correspond to the none results of the model. -/

/-- The article record built at lines 99 to 106 of the program. -/
structure Article where
  title : String
  url : String
  description : String
  image_url : Option String
  pub_date : Nat
  guid : String

/-- The fixed base URL of the program (line 18). -/
def baseUrl : String := "https://the-brandidentity.com"

/-- The fixed listing URL of the program (line 19). -/
def featuresUrl : String := "https://the-brandidentity.com/features"

/-- Tag names accepted for the title element (line 60). -/
def titleTags : List String := ["h1", "h2", "h3", "h4", "a"]

/-- URL selection of lines 68 to 79: link_elem is the first descendant
hyperlink, or the candidate itself when there is none; when link_elem
is a hyperlink its href is taken, otherwise the first descendant
hyperlink carrying an href is searched; a missing or empty href yields
none, any other href is resolved against the base URL. -/
def pickUrl (base : String) (element : Node) : Option String :=
  let link_elem := (findOne element (fun n => n.tagName == some "a")).getD element
  let url : Option String :=
    if link_elem.tagName == some "a" then
      link_elem.getAttr "href"
    else
      match findOne element (fun n => n.tagName == some "a" && n.hasAttr "href") with
      | some u => u.getAttr "href"
      | none => none
  match url with
  | none => none
  | some u => if u = "" then none else some (urljoin base u)

/-- Description element selection of lines 82 to 84: first paragraph
or block element whose class attribute matches the excerpt pattern,
else the first paragraph element. -/
def pickDescElem (element : Node) : Option Node :=
  match findOne element (fun n => tagIn n ["p", "div"] && classAttrMatches n classDescPattern) with
  | some d => some d
  | none => findOne element (fun n => n.tagName == some "p")

/-- Description text of line 86: stripped text of the description
element when one was found, else the title text. -/
def pickDesc (element : Node) (title : String) : String :=
  match pickDescElem element with
  | some d => getTextStrip d
  | none => title

/-- Image selection of lines 89 to 94: first image element, its src
attribute or, when that is falsy, its data-src attribute; a truthy
value is resolved against the base URL. -/
def pickImage (base : String) (element : Node) : Option String :=
  match findOne element (fun n => n.tagName == some "img") with
  | none => none
  | some img_elem =>
    match pyOr (img_elem.getAttr "src") (img_elem.getAttr "data-src") with
    | none => none
    | some s => if s = "" then some "" else some (urljoin base s)

/-- Translation of extract_article_data: title element search and
length check, URL selection, description, image, current timestamp as
publication date, and the record with guid equal to the url. -/
def extract_article_data (base : String) (now : Nat) (element : Node) : Option Article :=
  match findOne element (fun n => tagIn n titleTags) with
  | none => none
  | some title_elem =>
    let title := getTextStrip title_elem
    if title = "" || title.length < 10 then none
    else
      match pickUrl base element with
      | none => none
      | some url =>
        some { title := title, url := url,
               description := pickDesc element title,
               image_url := pickImage base element,
               pub_date := now, guid := url }

/-- First discovery strategy (line 37): article or div elements whose
class attribute matches the candidate class pattern. -/
def strategyClassMatch (doc : List Node) : List Node :=
  docFindAll doc (fun n => tagIn n ["article", "div"] && classAttrMatches n classPostPattern)

/-- Second discovery strategy (line 41): hyperlinks whose href matches
the single path segment pattern. -/
def strategyHrefMatch (doc : List Node) : List Node :=
  docFindAll doc fun n =>
    n.tagName == some "a" &&
      (match n.getAttr "href" with
       | some h => hrefSingleSegment h
       | none => false)

/-- Candidate discovery of lines 37 to 41: class strategy first, link
strategy only when the class strategy found nothing. -/
def findCandidates (doc : List Node) : List Node :=
  let article_elements := strategyClassMatch doc
  if article_elements.isEmpty then strategyHrefMatch doc else article_elements

/-- The extraction loop of lines 45 to 48: each candidate in turn,
appending the extracted record when extraction succeeds. -/
def collectArticles (base : String) (now : Nat) : List Node → List Article
  | [] => []
  | e :: es =>
    match extract_article_data base now e with
    | some a => a :: collectArticles base now es
    | none => collectArticles base now es

/-- Translation of fetch_articles: a failed fetch (network error,
timeout or error status raised at line 31) takes the except branch and
returns the empty list; a successful fetch runs candidate discovery
and the extraction loop over the first twenty candidates. -/
def fetch_articles (base : String) (now : Nat) (resp : Option (List Node)) : List Article :=
  match resp with
  | none => []
  | some doc => collectArticles base now ((findCandidates doc).take 20)

/-! ## Timestamps

Timestamps are seconds since the Unix epoch, always in UTC, as the
program only ever calls datetime.now(timezone.utc).  The civil date is
recovered with the standard days-to-civil computation. -/

/-- Civil date (year, month, day) of a count of days since 1970-01-01. -/
def civilFromDays (days : Nat) : Nat × Nat × Nat :=
  let z := days + 719468
  let era := z / 146097
  let doe := z % 146097
  let yoe := (doe - doe / 1460 + doe / 36524 - doe / 146096) / 365
  let y := yoe + era * 400
  let doy := doe - (365 * yoe + yoe / 4 - yoe / 100)
  let mp := (5 * doy + 2) / 153
  let d := doy - (153 * mp + 2) / 5 + 1
  let m := if mp < 10 then mp + 3 else mp - 9
  (if m ≤ 2 then y + 1 else y, m, d)

/-- Abbreviated month name of strftime, one-based month. -/
def monthAbbrev (m : Nat) : String :=
  (["Jan", "Feb", "Mar", "Apr", "May", "Jun", "Jul", "Aug", "Sep", "Oct", "Nov", "Dec"]).getD (m - 1) ""

/-- Abbreviated weekday name of strftime for a day count since the
epoch, which fell on a Thursday. -/
def weekdayAbbrev (days : Nat) : String :=
  (["Sun", "Mon", "Tue", "Wed", "Thu", "Fri", "Sat"]).getD ((days + 4) % 7) ""

/-- The RFC 822 style format string of lines 127 and 138, rendered for
a UTC timestamp, where the timezone directive prints +0000. -/
def strftime822 (t : Nat) : String :=
  let days := t / 86400
  let secs := t % 86400
  let ymd := civilFromDays days
  weekdayAbbrev days ++ ", " ++ pad2 ymd.2.2 ++ " " ++ monthAbbrev ymd.2.1 ++ " " ++
    toString ymd.1 ++ " " ++ pad2 (secs / 3600) ++ ":" ++ pad2 (secs % 3600 / 60) ++ ":" ++
    pad2 (secs % 60) ++ " +0000"

/-- The isoformat rendering of an aware UTC datetime with zero
microseconds, as written at lines 159 and 168. -/
def isoformatUTC (t : Nat) : String :=
  let days := t / 86400
  let secs := t % 86400
  let ymd := civilFromDays days
  toString ymd.1 ++ "-" ++ pad2 ymd.2.1 ++ "-" ++ pad2 ymd.2.2 ++ "T" ++
    pad2 (secs / 3600) ++ ":" ++ pad2 (secs % 3600 / 60) ++ ":" ++ pad2 (secs % 60) ++ "+00:00"

/-! ## Feed builder

Translation of generate_rss (lines 112 to 143).  The ElementTree
document built before serialization is expressed with the same Node
type as the input markup: the text assigned to an element becomes its
single text child. -/

/-- The channel description of line 125, which contains an apostrophe. -/
def channelDescription : String :=
  "Latest features from The Brand Identity - Graphic Design" ++
    String.singleton (Char.ofNat 39) ++ "s Greatest"

/-- One feed item, as built at lines 131 to 141: title, link,
description, permalink guid and publication date, plus a thumbnail
when the image url is truthy. -/
def rssItem (a : Article) : Node :=
  .elem "item" []
    ([ .elem "title" [] [.text a.title],
       .elem "link" [] [.text a.url],
       .elem "description" [] [.text a.description],
       .elem "guid" [("isPermaLink", "true")] [.text a.guid],
       .elem "pubDate" [] [.text (strftime822 a.pub_date)] ] ++
     (if pyTruthyOpt a.image_url then
        [.elem "media:thumbnail" [("url", (a.image_url).getD "")] []]
      else []))

/-- The fixed channel metadata of lines 123 to 128, in order. -/
def channelMeta (furl : String) (now : Nat) : List Node :=
  [ .elem "title" [] [.text "The Brand Identity - Features"],
    .elem "link" [] [.text furl],
    .elem "description" [] [.text channelDescription],
    .elem "language" [] [.text "en-us"],
    .elem "lastBuildDate" [] [.text (strftime822 now)],
    .elem "generator" [] [.text "The Brand Identity RSS Generator"] ]

/-- The feed document tree built by generate_rss before serialization:
the rss root with its namespace declarations and one channel holding
the fixed metadata followed by one item per record, in input order. -/
def buildRss (furl : String) (now : Nat) (articles : List Article) : Node :=
  .elem "rss"
    [("version", "2.0"),
     ("xmlns:content", "http://purl.org/rss/1.0/modules/content/"),
     ("xmlns:dc", "http://purl.org/dc/elements/1.1/"),
     ("xmlns:media", "http://search.yahoo.com/mrss/")]
    [ .elem "channel" [] (channelMeta furl now ++ articles.map rssItem) ]

/-! ## XML serialization, modelling ElementTree tostring -/

/-- Escaping of character data, as the ElementTree serializer does. -/
def escXmlTextChar (c : Char) : String :=
  if c = '&' then "&amp;"
  else if c = '<' then "&lt;"
  else if c = '>' then "&gt;"
  else String.singleton c

/-- Escaping of attribute values, as the ElementTree serializer does. -/
def escXmlAttrChar (c : Char) : String :=
  if c = '&' then "&amp;"
  else if c = '<' then "&lt;"
  else if c = '>' then "&gt;"
  else if c = Char.ofNat 34 then "&quot;"
  else if c = Char.ofNat 13 then "&#13;"
  else if c = Char.ofNat 10 then "&#10;"
  else if c = Char.ofNat 9 then "&#09;"
  else String.singleton c

/-- Serialized attribute list, a leading space before each pair. -/
def xmlAttrsString (as : List (String × String)) : String :=
  String.join (as.map fun kv =>
    " " ++ kv.1 ++ "=" ++ String.singleton (Char.ofNat 34) ++
      String.join (kv.2.toList.map escXmlAttrChar) ++ String.singleton (Char.ofNat 34))

mutual

/-- Serialization of one node, with the short form for elements
without content, as ET.tostring produces by default. -/
def xmlSerialize : Node → String
  | .text s => String.join (s.toList.map escXmlTextChar)
  | .elem t as cs =>
    if cs.isEmpty then "<" ++ t ++ xmlAttrsString as ++ " />"
    else "<" ++ t ++ xmlAttrsString as ++ ">" ++ xmlSerializeList cs ++ "</" ++ t ++ ">"

/-- Serialization of a list of child nodes in order. -/
def xmlSerializeList : List Node → String
  | [] => ""
  | n :: ns => xmlSerialize n ++ xmlSerializeList ns

end

/-- Translation of generate_rss, which returns the serialized feed
(ET.tostring with unicode encoding, line 143). -/
def generate_rss (furl : String) (now : Nat) (articles : List Article) : String :=
  xmlSerialize (buildRss furl now articles)

/-! ## JSON values and serialization, modelling json.dump with
indent=2 and ensure_ascii=False -/

/-- JSON values produced by the metadata writer. -/
inductive Json where
  | str (s : String)
  | num (n : Int)
  | arr (xs : List Json)
  | obj (fields : List (String × Json))

/-- Hexadecimal digit. -/
def hexDigit (n : Nat) : String :=
  (["0", "1", "2", "3", "4", "5", "6", "7", "8", "9", "a", "b", "c", "d", "e", "f"]).getD n ""

/-- Escaping of one character inside a JSON string, as the Python
serializer does with ensure_ascii=False: quote, backslash and control
characters are escaped, everything else, non-ASCII included, is kept
as it is. -/
def escJsonChar (c : Char) : String :=
  if c = Char.ofNat 34 then String.singleton (Char.ofNat 92) ++ String.singleton (Char.ofNat 34)
  else if c = Char.ofNat 92 then String.singleton (Char.ofNat 92) ++ String.singleton (Char.ofNat 92)
  else if c = Char.ofNat 10 then "\\n"
  else if c = Char.ofNat 13 then "\\r"
  else if c = Char.ofNat 9 then "\\t"
  else if c = Char.ofNat 8 then "\\b"
  else if c = Char.ofNat 12 then "\\f"
  else if c.toNat < 32 then "\\u00" ++ hexDigit (c.toNat / 16) ++ hexDigit (c.toNat % 16)
  else String.singleton c

/-- A JSON string literal with its quotes. -/
def jsonStringLit (s : String) : String :=
  String.singleton (Char.ofNat 34) ++ String.join (s.toList.map escJsonChar) ++
    String.singleton (Char.ofNat 34)

mutual

/-- Serialization of a JSON value whose closing bracket sits at
indentation cur, with members indented two further columns, as
json.dump produces with indent=2. -/
def jsonDump (cur : Nat) : Json → String
  | .str s => jsonStringLit s
  | .num n => toString n
  | .arr [] => "[]"
  | .arr (x :: xs) =>
    "[\n" ++ jsonDumpArr (cur + 2) (x :: xs) ++ "\n" ++ spaces cur ++ "]"
  | .obj [] => "\x7b\x7d"
  | .obj (f :: fs) =>
    "\x7b\n" ++ jsonDumpObj (cur + 2) (f :: fs) ++ "\n" ++ spaces cur ++ "\x7d"

/-- Array members, one per line, separated by commas. -/
def jsonDumpArr (cur : Nat) : List Json → String
  | [] => ""
  | [x] => spaces cur ++ jsonDump cur x
  | x :: y :: ys => spaces cur ++ jsonDump cur x ++ ",\n" ++ jsonDumpArr cur (y :: ys)

/-- Object members, one per line, separated by commas. -/
def jsonDumpObj (cur : Nat) : List (String × Json) → String
  | [] => ""
  | [(k, v)] => spaces cur ++ jsonStringLit k ++ ": " ++ jsonDump cur v
  | (k, v) :: g :: gs =>
    spaces cur ++ jsonStringLit k ++ ": " ++ jsonDump cur v ++ ",\n" ++ jsonDumpObj cur (g :: gs)

end

/-! ## Writer and pipeline

The file system is a map from path to content; each write overwrites
the full content at one path.  run is the translation of the method of
lines 176 to 194, and exit_code of the main block of lines 196 to 201. -/

/-- File system state: content by path. -/
def FileSys : Type := String → Option String

/-- The empty file system. -/
def emptyFileSys : FileSys := fun _ => none

/-- Overwriting write of one whole file. -/
def writeFile (fs : FileSys) (path content : String) : FileSys :=
  fun q => if q = path then some content else fs q

/-- Translation of save_rss (lines 145 to 152): the XML declaration is
prefixed and the file at the given path is overwritten. -/
def save_rss (rss_content : String) (fs : FileSys) : FileSys :=
  writeFile fs "feed.xml"
    ("<?xml version=" ++ String.singleton (Char.ofNat 34) ++ "1.0" ++
      String.singleton (Char.ofNat 34) ++ " encoding=" ++ String.singleton (Char.ofNat 34) ++
      "UTF-8" ++ String.singleton (Char.ofNat 34) ++ "?>\n" ++ rss_content)

/-- One entry of the articles list of the metadata object (lines 165
to 169). -/
def metaArticleObj (a : Article) : Json :=
  .obj [("title", .str a.title), ("url", .str a.url),
        ("pub_date", .str (isoformatUTC a.pub_date))]

/-- The append loop of lines 164 to 169, building the articles list in
input order. -/
def metaArticlesLoop : List Article → List Json
  | [] => []
  | a :: rest => metaArticleObj a :: metaArticlesLoop rest

/-- The metadata object of lines 158 to 169. -/
def metadataJson (articles : List Article) (now : Nat) : Json :=
  .obj [("last_updated", .str (isoformatUTC now)),
        ("articles_count", .num articles.length),
        ("articles", .arr (metaArticlesLoop articles))]

/-- Translation of save_metadata (lines 156 to 174): the metadata
object serialized with two-space indentation, overwriting the file. -/
def save_metadata (articles : List Article) (now : Nat) (fs : FileSys) : FileSys :=
  writeFile fs "metadata.json" (jsonDump 0 (metadataJson articles now))

/-- Translation of run (lines 176 to 194): fetch and extract; stop
with failure before any write when no article was extracted; otherwise
build the feed, write it, write the metadata and report success. -/
def run (base furl : String) (now : Nat) (resp : Option (List Node)) (fs : FileSys) :
    Bool × FileSys :=
  let articles := fetch_articles base now resp
  if articles.isEmpty then (false, fs)
  else
    let rss_content := generate_rss furl now articles
    let fs1 := save_rss rss_content fs
    let fs2 := save_metadata articles now fs1
    (true, fs2)

/-- The process exit code of the main block: zero on success, one when
run reported failure. -/
def exit_code (base furl : String) (now : Nat) (resp : Option (List Node)) (fs : FileSys) : Nat :=
  if (run base furl now resp fs).1 then 0 else 1

/-! ## Specification-side definitions

These definitions follow the words of the specification, for
comparison with the translations above. -/

/-- URL choice as the amended description states it: the href of the
first descendant hyperlink when the candidate contains any descendant
hyperlink, the candidate rejected when that hyperlink has no href or
an empty one; otherwise the own href of the candidate when it is
itself a hyperlink; otherwise no URL. -/
def pickUrlSpec (base : String) (element : Node) : Option String :=
  match findOne element (fun n => n.tagName == some "a") with
  | some a0 =>
    (match a0.getAttr "href" with
     | some h => if h = "" then none else some (urljoin base h)
     | none => none)
  | none =>
    if element.tagName == some "a" then
      match element.getAttr "href" with
      | some h => if h = "" then none else some (urljoin base h)
      | none => none
    else none

/-- Title rejection condition of lines 60 to 66: no title element, or
empty or short title text. -/
def titleRejected (element : Node) : Bool :=
  match findOne element (fun n => tagIn n titleTags) with
  | none => true
  | some te =>
    let t := getTextStrip te
    t = "" || t.length < 10

/-- Candidate discovery as the specification phrases it: an ordered
list of strategies, each tried in turn, the first non-empty result
winning, with the case-sensitive class pattern of the program. -/
def findCandidatesSpec (doc : List Node) : List Node :=
  match ([strategyClassMatch doc, strategyHrefMatch doc]).find? (fun l => !l.isEmpty) with
  | some l => l
  | none => []

/-- First discovery strategy under a case-insensitive class pattern,
as the claim words it. -/
def strategyClassMatchCI (doc : List Node) : List Node :=
  docFindAll doc (fun n => tagIn n ["article", "div"] && classAttrMatches n classPostPatternCI)

/-- Candidate discovery as the claim words it, with the class pattern
read case-insensitively. -/
def findCandidatesSpecCI (doc : List Node) : List Node :=
  match ([strategyClassMatchCI doc, strategyHrefMatch doc]).find? (fun l => !l.isEmpty) with
  | some l => l
  | none => []

/-- Description fallback chain as the amended claim words it, with the
case-sensitive excerpt pattern of the program: text of the first
paragraph or block element whose class matches the excerpt pattern,
else text of the first paragraph element, else the title text. -/
def pickDescSpec (element : Node) (title : String) : String :=
  match (descendantsOf element).find? (fun n =>
      (n.tagName == some "p" || n.tagName == some "div") &&
        classAttrMatches n classDescPattern) with
  | some d => getTextStrip d
  | none =>
    match (descendantsOf element).find? (fun n => n.tagName == some "p") with
    | some p => getTextStrip p
    | none => title

/-- Description fallback chain as the claim words it, with the excerpt
pattern read case-insensitively. -/
def pickDescSpecCI (element : Node) (title : String) : String :=
  match (descendantsOf element).find? (fun n =>
      (n.tagName == some "p" || n.tagName == some "div") &&
        classAttrMatches n classDescPatternCI) with
  | some d => getTextStrip d
  | none =>
    match (descendantsOf element).find? (fun n => n.tagName == some "p") with
    | some p => getTextStrip p
    | none => title

/-! ## Inspection of the generated feed tree -/

/-- The channel element of a feed document. -/
def channelOf (feed : Node) : Option Node :=
  (feed.childNodes).find? (fun n => n.tagName == some "channel")

/-- The item elements of a feed document, in order. -/
def itemsOf (feed : Node) : List Node :=
  (((channelOf feed).map Node.childNodes).getD []).filter (fun n => n.tagName == some "item")

/-- Text content of the guid child of an item. -/
def itemGuidText (item : Node) : Option String :=
  ((item.childNodes).find? (fun n => n.tagName == some "guid")).map rawText

/-- The isPermaLink attribute of the guid child of an item. -/
def itemGuidPerma (item : Node) : Option String :=
  ((item.childNodes).find? (fun n => n.tagName == some "guid")).bind
    (fun g => g.getAttr "isPermaLink")

/-- Text content of the title child of an item. -/
def itemTitleText (item : Node) : Option String :=
  ((item.childNodes).find? (fun n => n.tagName == some "title")).map rawText

/-! ## Concrete documents and records used as evidence -/

/-- A candidate whose first descendant hyperlink carries no href while
a later descendant hyperlink does. -/
def cexC1El : Node :=
  .elem "div" [("class", "post")]
    [ .elem "h2" [] [.text "A sufficiently long title"],
      .elem "a" [] [.text "a menu toggle without target"],
      .elem "a" [("href", "/features/hidden-story")] [.text "read the story"] ]

/-- A document whose only plausible candidate carries the class Post,
which the case-insensitive reading accepts and the program does not. -/
def docC2 : List Node :=
  [ .elem "div" [("class", "Post")]
      [ .elem "h2" [] [.text "A long enough headline"] ] ]

/-- A candidate holding a block element whose class matches the
excerpt pattern only up to case, next to a plain paragraph with
different text. -/
def cexC3El : Node :=
  .elem "article" [("class", "post")]
    [ .elem "h2" [] [.text "A long enough headline"],
      .elem "a" [("href", "/features/case-study")] [.text "read"],
      .elem "div" [("class", "Excerpt")] [.text "From the excerpt block"],
      .elem "p" [] [.text "A plain paragraph"] ]

/-- A well-formed candidate used to witness the description chain. -/
def wC3El : Node :=
  .elem "article" [("class", "entry")]
    [ .elem "h2" [] [.text "Witness headline long enough"],
      .elem "a" [("href", "/features/witness")] [.text "go"],
      .elem "p" [("class", "excerpt")] [.text "A real excerpt"] ]

/-- The record the extractor produces from the witness candidate. -/
def wC3Art : Article :=
  { title := "Witness headline long enough",
    url := "https://the-brandidentity.com/features/witness",
    description := "A real excerpt",
    image_url := none,
    pub_date := 0,
    guid := "https://the-brandidentity.com/features/witness" }

/-- Two records satisfying the data model invariant guid equal to url,
used to witness the feed builder claim. -/
def wC4Art1 : Article :=
  { title := "First witness article title", url := "https://the-brandidentity.com/features/one",
    description := "first", image_url := none, pub_date := 0,
    guid := "https://the-brandidentity.com/features/one" }

/-- Second feed builder witness record, carrying an image. -/
def wC4Art2 : Article :=
  { title := "Second witness article title", url := "https://the-brandidentity.com/features/two",
    description := "second", image_url := some "https://the-brandidentity.com/img/2.jpg",
    pub_date := 0, guid := "https://the-brandidentity.com/features/two" }

/-- A candidate that extracts successfully, used around the failing
candidate in the batch witness. -/
def wC7Good1 : Node :=
  .elem "div" [("class", "card")]
    [ .elem "h3" [] [.text "Good candidate number one"],
      .elem "a" [("href", "/features/good-one")] [] ]

/-- A candidate rejected by the extractor: its title text is shorter
than ten characters. -/
def wC7Bad : Node :=
  .elem "div" [("class", "card")]
    [ .elem "h3" [] [.text "short"],
      .elem "a" [("href", "/features/bad")] [] ]

/-- A second successful candidate for the batch witness. -/
def wC7Good2 : Node :=
  .elem "div" [("class", "card")]
    [ .elem "h3" [] [.text "Good candidate number two"],
      .elem "a" [("href", "/features/good-two")] [] ]

/-- A record with a non-ASCII character in its title, used to witness
the metadata writer claim. -/
def wC9Art : Article :=
  { title := "Caf" ++ String.singleton (Char.ofNat 233) ++ " branding study",
    url := "https://the-brandidentity.com/features/cafe",
    description := "d", image_url := none, pub_date := 60,
    guid := "https://the-brandidentity.com/features/cafe" }

/-- A candidate whose first paragraph has only whitespace text, so the
description of its record is the empty string. -/
def wC10El : Node :=
  .elem "article" [("class", "entry")]
    [ .elem "h2" [] [.text "Another long headline here"],
      .elem "a" [("href", "/features/w10")] [],
      .elem "p" [] [.text "   "] ]

/-- The paragraph with whitespace-only text inside the previous
candidate. -/
def wC10P : Node := .elem "p" [] [.text "   "]

/-- The record the extractor produces from the whitespace-description
candidate: its description is empty, not the title. -/
def wC10Art : Article :=
  { title := "Another long headline here",
    url := "https://the-brandidentity.com/features/w10",
    description := "",
    image_url := none,
    pub_date := 0,
    guid := "https://the-brandidentity.com/features/w10" }

/-! ## Helper lemmas -/

/-- A search with a conjunctive predicate finds nothing when the
search with the first conjunct alone finds nothing. -/
theorem find?_and_none {l : List Node} {p q : Node → Bool}
    (h : l.find? p = none) : l.find? (fun x => p x && q x) = none := by
  rw [List.find?_eq_none] at h ⊢
  intro x hx
  simp [h x hx]

/-- Two pointwise equal predicates search alike. -/
theorem find?_congr_pred {l : List Node} {p q : Node → Bool}
    (h : ∀ x, p x = q x) : l.find? p = l.find? q := by
  have : p = q := funext h
  rw [this]

/-- The extraction loop is the filterMap of per-candidate extraction. -/
theorem collectArticles_eq_filterMap (base : String) (now : Nat) (l : List Node) :
    collectArticles base now l = l.filterMap (extract_article_data base now) := by
  induction l with
  | nil => rfl
  | cons e es ih =>
    rw [collectArticles, List.filterMap_cons]
    cases extract_article_data base now e <;> simp [ih]

/-- The metadata append loop is the map of the entry constructor. -/
theorem metaArticlesLoop_eq_map (l : List Article) :
    metaArticlesLoop l = l.map metaArticleObj := by
  induction l with
  | nil => rfl
  | cons a rest ih => rw [metaArticlesLoop, List.map_cons, ih]

/-- Inversion of the extractor: a produced record has its guid equal
to its url, its description computed by the description chain from its
own title, and the extraction timestamp as publication date. -/
theorem extract_shape {base : String} {now : Nat} {el : Node} {a : Article}
    (h : extract_article_data base now el = some a) :
    a.guid = a.url ∧ a.description = pickDesc el a.title ∧ a.pub_date = now := by
  unfold extract_article_data at h
  split at h
  · exact absurd h (by simp)
  · simp only at h
    split at h
    · exact absurd h (by simp)
    · split at h
      · exact absurd h (by simp)
      · cases h
        exact ⟨rfl, rfl, rfl⟩

/-! ## Claim theorems -/

/-- C5: for every input document, the extractor returns at most twenty
records, and the returned records are the per-candidate extraction
results of the first twenty discovered candidates, in their document
order, skipping the rejected ones. -/
theorem fetch_articles_bounded (base : String) (now : Nat) (doc : List Node) :
    (fetch_articles base now (some doc)).length ≤ 20 ∧
    fetch_articles base now (some doc) =
      ((findCandidates doc).take 20).filterMap (extract_article_data base now) := by
  have heq : fetch_articles base now (some doc) =
      ((findCandidates doc).take 20).filterMap (extract_article_data base now) := by
    rw [fetch_articles, collectArticles_eq_filterMap]
  refine ⟨?_, heq⟩
  rw [heq]
  exact le_trans (List.length_filterMap_le _ _) (List.length_take_le _ _)

/-- C6: a failed fetch yields the empty record list without invoking
extraction on any document, the process then exits with code one, and
the exit code is zero exactly when at least one article was
extracted. -/
theorem fetch_failure_exit (base furl : String) (now : Nat) :
    fetch_articles base now none = [] ∧
    (∀ fs, exit_code base furl now none fs = 1) ∧
    (∀ resp fs, exit_code base furl now resp fs = 0 ↔
      (fetch_articles base now resp).isEmpty = false) := by
  refine ⟨rfl, fun fs => rfl, fun resp fs => ?_⟩
  unfold exit_code run
  cases h : (fetch_articles base now resp).isEmpty <;> simp [h]

/-- C7: a candidate on which extraction yields no record is skipped
without affecting the rest of the batch: the loop result over the
surrounding candidates is unchanged. -/
theorem skip_failing_candidate (base : String) (now : Nat) (xs ys : List Node) (bad : Node)
    (h : extract_article_data base now bad = none) :
    collectArticles base now (xs ++ bad :: ys) = collectArticles base now (xs ++ ys) := by
  rw [collectArticles_eq_filterMap, collectArticles_eq_filterMap,
    List.filterMap_append, List.filterMap_append, List.filterMap_cons, h]

/-- Witness for C7: a concrete batch with a failing candidate in the
middle produces the same records as the batch without it. -/
theorem skip_failing_candidate_witness :
    collectArticles baseUrl 0 [wC7Good1, wC7Bad, wC7Good2] =
      collectArticles baseUrl 0 [wC7Good1, wC7Good2] :=
  skip_failing_candidate baseUrl 0 [wC7Good1] [wC7Good2] wC7Bad (by rfl)

/-- C8: when no article was extracted, run reports failure and leaves
the file system exactly as it was: neither the feed nor the metadata
file is written. -/
theorem run_no_articles_no_write (base furl : String) (now : Nat)
    (resp : Option (List Node)) (fs : FileSys)
    (h : fetch_articles base now resp = []) :
    run base furl now resp fs = (false, fs) := by
  unfold run
  rw [h]
  rfl

/-- Witness for C8: a failed fetch on the empty file system ends the
run with failure and the file system still empty. -/
theorem run_no_articles_no_write_witness :
    run baseUrl featuresUrl 0 none emptyFileSys = (false, emptyFileSys) :=
  run_no_articles_no_write baseUrl featuresUrl 0 none emptyFileSys rfl

/-- C1 counterexample: a candidate with a passing title whose first
descendant hyperlink has no href while a later descendant hyperlink
does is rejected by the extractor, although the claim promises a
record for every candidate containing some descendant hyperlink with
an href attribute. -/
theorem url_preference_cex :
    extract_article_data baseUrl 0 cexC1El = none ∧
    (descendantsOf cexC1El).any (fun n => (n.tagName == some "a") && n.hasAttr "href") = true ∧
    titleRejected cexC1El = false :=
  ⟨by rfl, by rfl, by rfl⟩

/-- C1 amended: the URL choice equals the amended description (first
descendant hyperlink when one exists, with rejection when that very
hyperlink has no usable href; else the own href of a hyperlink
candidate; else rejection), and the extractor returns none exactly
when the title is rejected or no URL is chosen this way. -/
theorem url_preference_amended (base : String) (now : Nat) (el : Node) :
    pickUrl base el = pickUrlSpec base el ∧
    (extract_article_data base now el = none ↔
      (titleRejected el = true ∨ pickUrl base el = none)) := by
  constructor
  · unfold pickUrl pickUrlSpec findOne
    cases hf : (descendantsOf el).find? (fun n => n.tagName == some "a") with
    | some a0 =>
      have hp := List.find?_some hf
      simp only at hp
      simp only [Option.getD, hp, if_true]
      cases a0.getAttr "href" with
      | none => rfl
      | some h => rfl
    | none =>
      have h2 : (descendantsOf el).find? (fun n => n.tagName == some "a" && n.hasAttr "href") = none :=
        find?_and_none hf
      simp only [Option.getD, h2]
      cases he : (el.tagName == some "a") with
      | true =>
        simp only [he, if_true]
        cases el.getAttr "href" with
        | none => rfl
        | some h => rfl
      | false => simp [he]
  · unfold extract_article_data titleRejected
    cases ht : findOne el (fun n => tagIn n titleTags) with
    | none => simp
    | some te =>
      simp only
      cases hcond : (decide (getTextStrip te = "") || decide ((getTextStrip te).length < 10)) with
      | true => simp [hcond]
      | false =>
        simp only [hcond, Bool.false_eq_true, if_false]
        cases hu : pickUrl base el with
        | none => simp
        | some u => simp

/-- C2 counterexample: a document whose only block candidate carries
the class Post is discovered by the case-insensitive reading of the
claim but not by the program, whose class pattern is case sensitive. -/
theorem candidate_discovery_cex :
    findCandidates docC2 = [] ∧ (findCandidatesSpecCI docC2).length = 1 :=
  ⟨by rfl, by rfl⟩

/-- C2 amended: candidate discovery is the ordered two-strategy
fallback with the first non-empty result winning, in document order,
with the class pattern matched case-sensitively. -/
theorem candidate_discovery_amended (doc : List Node) :
    findCandidates doc = findCandidatesSpec doc := by
  unfold findCandidates findCandidatesSpec
  cases h1 : (strategyClassMatch doc).isEmpty with
  | false => simp [List.find?, h1]
  | true =>
    cases h2 : (strategyHrefMatch doc).isEmpty with
    | false => simp [List.find?, h1, h2]
    | true =>
      simp [List.find?, h1, h2, List.isEmpty_iff.mp h1, List.isEmpty_iff.mp h2]

/-- The description chain of the program equals the chain written as
the amended claim phrases it, for every element and fallback title. -/
theorem pickDesc_eq_spec (el : Node) (title : String) :
    pickDesc el title = pickDescSpec el title := by
  have hpred : ∀ n : Node,
      (tagIn n ["p", "div"] && classAttrMatches n classDescPattern) =
        ((n.tagName == some "p" || n.tagName == some "div") && classAttrMatches n classDescPattern) := by
    intro n
    cases n with
    | text s => rfl
    | elem t as cs =>
      simp [tagIn, Node.tagName, List.contains, beq_eq_decide]
  unfold pickDesc pickDescElem pickDescSpec findOne
  rw [find?_congr_pred hpred]
  cases (descendantsOf el).find? (fun n =>
      (n.tagName == some "p" || n.tagName == some "div") && classAttrMatches n classDescPattern) with
  | some d => rfl
  | none =>
    cases (descendantsOf el).find? (fun n => n.tagName == some "p") with
    | some p => rfl
    | none => rfl

/-- C3 counterexample: on a candidate holding a block whose class is
Excerpt and a later plain paragraph, the extractor takes the plain
paragraph text, while the case-insensitive chain of the claim takes
the block text. -/
theorem description_chain_cex :
    (extract_article_data baseUrl 0 cexC3El).map (fun a => a.description) =
      some "A plain paragraph" ∧
    pickDescSpecCI cexC3El "A long enough headline" = "From the excerpt block" ∧
    ("A plain paragraph" : String) ≠ "From the excerpt block" :=
  ⟨by rfl, by rfl, by decide⟩

/-- C3 amended: the description of every produced record follows the
fallback chain with the class pattern matched case-sensitively: first
paragraph or block element whose class matches the excerpt pattern,
else the first paragraph, else the title text. -/
theorem description_chain_amended (base : String) (now : Nat) (el : Node) (a : Article)
    (h : extract_article_data base now el = some a) :
    a.description = pickDescSpec el a.title := by
  rw [(extract_shape h).2.1, pickDesc_eq_spec]

/-- Witness for the amended C3 theorem: a concrete candidate with a
real excerpt paragraph, whose record carries that excerpt as its
description, as the chain prescribes. -/
theorem description_chain_amended_witness :
    extract_article_data baseUrl 0 wC3El = some wC3Art ∧
    wC3Art.description = pickDescSpec wC3El wC3Art.title :=
  ⟨by rfl, description_chain_amended baseUrl 0 wC3El wC3Art (by rfl)⟩

/-- C10: when the description chain finds an element, the record takes
that elements stripped text even when it is empty; the fallback to the
title applies only when no description element exists at all. -/
theorem empty_description_kept (base : String) (now : Nat) (el : Node) (a : Article)
    (h : extract_article_data base now el = some a) :
    (∀ e, pickDescElem el = some e → a.description = getTextStrip e) ∧
    (pickDescElem el = none → a.description = a.title) := by
  have hd := (extract_shape h).2.1
  constructor
  · intro e he
    rw [hd]
    unfold pickDesc
    rw [he]
  · intro he
    rw [hd]
    unfold pickDesc
    rw [he]

/-- Witness for C10: a candidate whose only paragraph has
whitespace-only text produces a record whose description is the empty
string rather than the title. -/
theorem empty_description_kept_witness :
    extract_article_data baseUrl 0 wC10El = some wC10Art ∧ wC10Art.description = "" :=
  ⟨by rfl, (empty_description_kept baseUrl 0 wC10El wC10Art (by rfl)).1 wC10P (by rfl)⟩

/-- Every item node carries the item tag. -/
theorem rssItem_tag (a : Article) : ((rssItem a).tagName == some "item") = true := by
  rfl

/-- The guid text of a generated item is the guid of its record. -/
theorem itemGuidText_rssItem (a : Article) : itemGuidText (rssItem a) = some a.guid := by
  unfold rssItem itemGuidText
  split <;> rfl

/-- The guid of a generated item carries the permalink flag. -/
theorem itemGuidPerma_rssItem (a : Article) : itemGuidPerma (rssItem a) = some "true" := by
  unfold rssItem itemGuidPerma
  split <;> rfl

/-- The title text of a generated item is the title of its record. -/
theorem itemTitleText_rssItem (a : Article) : itemTitleText (rssItem a) = some a.title := by
  unfold rssItem itemTitleText
  split <;> rfl

/-- The items of the generated feed tree are exactly the per-record
items, in input order. -/
theorem itemsOf_buildRss (furl : String) (now : Nat) (rs : List Article) :
    itemsOf (buildRss furl now rs) = rs.map rssItem := by
  have h0 : itemsOf (buildRss furl now rs) =
      (channelMeta furl now ++ rs.map rssItem).filter (fun n => n.tagName == some "item") := rfl
  rw [h0, List.filter_append]
  have h1 : (channelMeta furl now).filter (fun n => n.tagName == some "item") = [] := rfl
  rw [h1, List.nil_append, List.filter_map]
  have h2 : (rs.filter ((fun n => n.tagName == some "item") ∘ rssItem)) = rs :=
    List.filter_eq_self.mpr fun a _ => rssItem_tag a
  rw [h2]

/-- C4: for every record list whose entries satisfy the data model
invariant that guid equals url, the feed tree has exactly one item per
record; at every position the item title is the title of the record at
the same position, its guid text is that records url, and the guid
carries the permalink flag. -/
theorem feed_items_match (furl : String) (now : Nat) (rs : List Article)
    (h : ∀ r ∈ rs, r.guid = r.url) :
    (itemsOf (buildRss furl now rs)).length = rs.length ∧
    ∀ i : Nat,
      ((itemsOf (buildRss furl now rs))[i]?).map itemGuidText = (rs[i]?).map (fun r => some r.url) ∧
      ((itemsOf (buildRss furl now rs))[i]?).map itemGuidPerma = (rs[i]?).map (fun _ => some "true") ∧
      ((itemsOf (buildRss furl now rs))[i]?).map itemTitleText = (rs[i]?).map (fun r => some r.title) := by
  rw [itemsOf_buildRss]
  refine ⟨List.length_map _ _, fun i => ?_⟩
  rw [List.getElem?_map]
  cases hr : rs[i]? with
  | none => simp
  | some r =>
    have hm : r ∈ rs := List.getElem?_mem hr
    simp [itemGuidText_rssItem, itemGuidPerma_rssItem, itemTitleText_rssItem, h r hm]

/-- Witness for C4: a concrete two-record list produces two items, and
the second item carries the url of the second record as its guid. -/
theorem feed_items_match_witness :
    (itemsOf (buildRss featuresUrl 0 [wC4Art1, wC4Art2])).length = 2 ∧
    ((itemsOf (buildRss featuresUrl 0 [wC4Art1, wC4Art2]))[1]?).map itemGuidText =
      some (some "https://the-brandidentity.com/features/two") := by
  have H := feed_items_match featuresUrl 0 [wC4Art1, wC4Art2] (by
    intro r hr
    simp [wC4Art1, wC4Art2] at hr
    rcases hr with rfl | rfl <;> rfl)
  exact ⟨H.1, (H.2 1).1⟩

/-- C9: the metadata writer overwrites the metadata file, whatever was
there, with the indented serialization of the summary object holding
the ISO-8601 rendering of the current UTC time, the integer record
count, and one title, url and publication date entry per record in
order; it touches no other path; and the serializer leaves non-ASCII
characters unescaped. -/
theorem save_metadata_spec (articles : List Article) (now : Nat) (fs : FileSys) :
    save_metadata articles now fs "metadata.json" =
      some (jsonDump 0 (Json.obj
        [("last_updated", Json.str (isoformatUTC now)),
         ("articles_count", Json.num articles.length),
         ("articles", Json.arr (articles.map metaArticleObj))])) ∧
    (∀ p, p ≠ "metadata.json" → save_metadata articles now fs p = fs p) ∧
    (∀ c : Char, 127 < c.toNat → escJsonChar c = String.singleton c) := by
  refine ⟨?_, ?_, ?_⟩
  · unfold save_metadata writeFile metadataJson
    rw [metaArticlesLoop_eq_map]
    simp
  · intro p hp
    unfold save_metadata writeFile
    rw [if_neg hp]
  · intro c hc
    have h34 : c ≠ Char.ofNat 34 := by rintro rfl; revert hc; decide
    have h92 : c ≠ Char.ofNat 92 := by rintro rfl; revert hc; decide
    have h10 : c ≠ Char.ofNat 10 := by rintro rfl; revert hc; decide
    have h13 : c ≠ Char.ofNat 13 := by rintro rfl; revert hc; decide
    have h9 : c ≠ Char.ofNat 9 := by rintro rfl; revert hc; decide
    have h8 : c ≠ Char.ofNat 8 := by rintro rfl; revert hc; decide
    have h12 : c ≠ Char.ofNat 12 := by rintro rfl; revert hc; decide
    have h32 : ¬ (c.toNat < 32) := by omega
    simp [escJsonChar, h34, h92, h10, h13, h9, h8, h12, h32]

/-- Witness for C9: one record whose title holds a non-ASCII letter;
the metadata file receives the serialized summary, the feed path is
untouched, and that letter passes through the serializer unescaped. -/
theorem save_metadata_spec_witness :
    save_metadata [wC9Art] 60 emptyFileSys "metadata.json" =
      some (jsonDump 0 (Json.obj
        [("last_updated", Json.str (isoformatUTC 60)),
         ("articles_count", Json.num 1),
         ("articles", Json.arr [metaArticleObj wC9Art])])) ∧
    save_metadata [wC9Art] 60 emptyFileSys "feed.xml" = none ∧
    escJsonChar (Char.ofNat 233) = String.singleton (Char.ofNat 233) := by
  have H := save_metadata_spec [wC9Art] 60 emptyFileSys
  refine ⟨H.1, ?_, H.2.2 (Char.ofNat 233) (by decide)⟩
  have h := H.2.1 "feed.xml" (by decide)
  simpa [emptyFileSys] using h
